import Mathlib

/-!
Verification of the admin-shell subsystem of the Wisdom-Flow repository:
the tags-view registry component (`src/management/web/src/layouts/components/TagsView/index.vue`)
and the theme engine (`src/management/web/src/common/composables/useTheme.ts`).

The pinia store behind `useTagsViewStore` and the local-storage cache helpers are
not part of the supplied sources; their operations are modelled from the spec
(each such definition carries a doc comment starting with `Modelled from the spec:`).
Everything else is translated directly from the component and composable sources.
-/

namespace TagsView

/-- A visited view (tab entry). The store's `TagView` type is not in the supplied
sources; the fields follow the spec's VisitedView attributes (`path`, `fullPath`,
`name`, `query`, affixed flag) as used by the component. `fullPath` and `name`
are optional, matching the component's `latestView?.fullPath`, `tag.name` and
`view.name === "Dashboard"` accesses; `affix` flattens `meta?.affix`. -/
structure TagView where
  path : String
  fullPath : Option String
  name : Option String
  query : List (String × String)
  affix : Bool
  deriving DecidableEq, Repr

/-- The View Registry state: ordered visited views and the set of cached names. -/
structure RegistryState where
  visitedViews : List TagView
  cachedViews : List String
  deriving DecidableEq, Repr

/-- Kind of a router navigation call. -/
inductive NavKind where
  | push
  | replace
  deriving DecidableEq, Repr

/-- One navigation issued to the router: `router.push` / `router.replace` with a
target location and an explicit query (empty when a bare path string is pushed,
whose query, if any, is already embedded in the string). -/
structure NavEvent where
  kind : NavKind
  target : String
  query : List (String × String)
  deriving DecidableEq, Repr

/-- Modelled from the spec: the store's `addVisitedView` (`register`, §4.1):
"insert-or-noop into VisitedViews (by `path`)". -/
def addVisitedView (s : RegistryState) (v : TagView) : RegistryState :=
  if s.visitedViews.any (fun w => w.path == v.path) then s
  else { s with visitedViews := s.visitedViews ++ [v] }

/-- Modelled from the spec: the store's `addCachedView` (`register`, §4.1):
"if it carries a `name`, ... insert-or-noop into CachedViews (by `name`)". -/
def addCachedView (s : RegistryState) (v : TagView) : RegistryState :=
  match v.name with
  | none => s
  | some n =>
    if s.cachedViews.contains n then s
    else { s with cachedViews := s.cachedViews ++ [n] }

/-- Modelled from the spec: the store's `delVisitedView` (`closeOne`, §4.1):
removes the view from the VisitedViews collection (keyed by `path`). -/
def delVisitedView (s : RegistryState) (v : TagView) : RegistryState :=
  { s with visitedViews := s.visitedViews.filter (fun w => w.path != v.path) }

/-- Modelled from the spec: the store's `delCachedView` (`closeOne`/`refresh`, §4.1):
removes the view's `name` from the CachedViews set. -/
def delCachedView (s : RegistryState) (v : TagView) : RegistryState :=
  { s with cachedViews := s.cachedViews.filter (fun n => v.name != some n) }

/-- Modelled from the spec: the store's `delOthersVisitedViews` (`closeOthers`, §4.1):
"removes every VisitedView ... except `keep` and any affixed views". -/
def delOthersVisitedViews (s : RegistryState) (keep : TagView) : RegistryState :=
  { s with visitedViews :=
      s.visitedViews.filter (fun w => w.affix || w.path == keep.path) }

/-- Modelled from the spec: the store's `delOthersCachedViews` (`closeOthers`, §4.1):
"removes every ... CachedView except `keep` and any affixed views" (a cached name
survives when it is `keep`'s name or the name of an affixed visited view). -/
def delOthersCachedViews (s : RegistryState) (keep : TagView) : RegistryState :=
  { s with cachedViews :=
      s.cachedViews.filter (fun n =>
        keep.name == some n
          || s.visitedViews.any (fun w => w.affix && w.name == some n)) }

/-- Modelled from the spec: the store's `delAllVisitedViews` (`closeAll`, §4.1):
"removes every non-affixed VisitedView". -/
def delAllVisitedViews (s : RegistryState) : RegistryState :=
  { s with visitedViews := s.visitedViews.filter (fun w => w.affix) }

/-- Modelled from the spec: the store's `delAllCachedViews` (`closeAll`, §4.1):
"removes every non-affixed ... CachedView" (a cached name survives only when it
names an affixed visited view). -/
def delAllCachedViews (s : RegistryState) : RegistryState :=
  { s with cachedViews :=
      s.cachedViews.filter (fun n =>
        s.visitedViews.any (fun w => w.affix && w.name == some n)) }

/-- `isActive` from the component: `tag.path === route.path`. -/
def isActive (tag : TagView) (routePath : String) : Bool :=
  tag.path == routePath

/-- `isAffix` from the component: `tag.meta?.affix`. -/
def isAffix (tag : TagView) : Bool :=
  tag.affix

/-- `toLastView` from the component: push the last visited view's `fullPath` when
defined; otherwise fall back to a remount of the home route when the closed
view's name is "Dashboard", else push the application root. -/
def toLastView (visitedViews : List TagView) (view : TagView) : List NavEvent :=
  match visitedViews.getLast?.bind TagView.fullPath with
  | some fullPath => [⟨NavKind.push, fullPath, []⟩]
  | none =>
    if view.name == some "Dashboard" then
      [⟨NavKind.push, "/redirect" ++ view.path, view.query⟩]
    else
      [⟨NavKind.push, "/", []⟩]

/-- `refreshSelectedTag` from the component: drop the view from the cache and
`router.replace` to `/redirect` + path with the view's query.
Returns the new registry state and the navigations issued. -/
def refreshSelectedTag (view : TagView) (s : RegistryState) :
    RegistryState × List NavEvent :=
  (delCachedView s view,
   [⟨NavKind.replace, "/redirect" ++ view.path, view.query⟩])

/-- `closeSelectedTag` from the component: delete from both collections, then
navigate via `toLastView` only when the closed view is the active one. -/
def closeSelectedTag (view : TagView) (s : RegistryState) (routePath : String) :
    RegistryState × List NavEvent :=
  let s1 := delCachedView (delVisitedView s view) view
  (s1, if isActive view routePath then toLastView s1.visitedViews view else [])

/-- The close control as exposed by the template: the close icon, middle-click
handler and context-menu entry all fire only when `!isAffix(tag)`, so closing an
affixed tab through the UI is a no-op. -/
def closeTagFromUI (view : TagView) (s : RegistryState) (routePath : String) :
    RegistryState × List NavEvent :=
  if isAffix view then (s, []) else closeSelectedTag view s routePath

/-- `closeOthersTags` from the component: push the selected tag's `fullPath`
when it is defined and differs from the current route path, then delete all
other (non-affixed) views from both collections. -/
def closeOthersTags (selectedTag : TagView) (s : RegistryState) (routePath : String) :
    RegistryState × List NavEvent :=
  let navs :=
    match selectedTag.fullPath with
    | some fullPath =>
      if fullPath != routePath then [⟨NavKind.push, fullPath, []⟩] else []
    | none => []
  (delOthersCachedViews (delOthersVisitedViews s selectedTag) selectedTag, navs)

/-- `closeAllTags` from the component: delete every non-affixed view from both
collections; if an affix tag's path equals the current route path, stop,
otherwise navigate via `toLastView` over the survivors. -/
def closeAllTags (view : TagView) (s : RegistryState) (routePath : String)
    (affixTags : List TagView) : RegistryState × List NavEvent :=
  let s1 := delAllCachedViews (delAllVisitedViews s)
  (s1,
   if affixTags.any (fun tag => tag.path == routePath) then []
   else toLastView s1.visitedViews view)

end TagsView

namespace Theme

/-- `DEFAULT_THEME_NAME` from the composable. -/
def DEFAULT_THEME_NAME : String := "normal"

/-- One entry of the registered theme list. -/
structure ThemeListItem where
  title : String
  name : String
  deriving DecidableEq, Repr

/-- `themeList` from the composable: the registered themes. -/
def themeList : List ThemeListItem :=
  [⟨"默认", DEFAULT_THEME_NAME⟩, ⟨"黑暗", "dark"⟩, ⟨"深蓝", "dark-blue"⟩]

/-- The registered theme names, `themeList.map(item => item.name)`. -/
def themeNames : List String :=
  themeList.map (fun item => item.name)

/-- Line 33, `getActiveThemeName() || DEFAULT_THEME_NAME`.
Modelled from the spec: `getActiveThemeName` (its source is not supplied) reads
the persisted theme identifier from durable client-side storage and returns it
as stored, or nothing when the key is absent. The `||` fallback of line 33 fires
exactly when the result is null or the empty string (JS falsiness). -/
def initialActiveThemeName (stored : Option String) : String :=
  match stored with
  | none => DEFAULT_THEME_NAME
  | some s => if s = "" then DEFAULT_THEME_NAME else s

/-- The `maxRadius` computed by `setTheme`:
`Math.hypot(Math.max(clientX, innerWidth - clientX), Math.max(clientY, innerHeight - clientY))`. -/
noncomputable def maxRadius (clientX clientY innerWidth innerHeight : ℝ) : ℝ :=
  Real.sqrt ((max clientX (innerWidth - clientX)) ^ 2
    + (max clientY (innerHeight - clientY)) ^ 2)

/-- Euclidean distance from `(x, y)` to a corner `(cx, cy)`. -/
noncomputable def cornerDistance (x y cx cy : ℝ) : ℝ :=
  Real.sqrt ((x - cx) ^ 2 + (y - cy) ^ 2)

/-- The sidebar CSS variables set by `setTheme`'s if/else chain:
(bg-color, text-color, hover-bg-color, active-text-color). -/
def sidebarCssVars (value : String) : String × String × String × String :=
  if value == "dark" then ("#e8e8e8", "#505050", "#d0d0d0", "#333333")
  else if value == "dark-blue" then ("#f9f0e6", "#8b7d6b", "#e8d7c6", "#6d5d4b")
  else ("#ffffff", "#333333", "#f5f7fa", "#1890ff")

/-- The observable outcome of one `setTheme` call: the transient CSS transition
variables, the sidebar colors, the new `activeThemeName`, and whether the state
swap was wrapped in `document.startViewTransition`. -/
structure SetThemeResult where
  themeX : ℝ
  themeY : ℝ
  themeR : ℝ
  sidebarVars : String × String × String × String
  active : String
  wrappedInViewTransition : Bool

/-- `setTheme` from the composable: computes the reveal radius from the click
coordinates and viewport size, stores the transition CSS variables, sets the
sidebar colors for the chosen theme, and runs the handler that assigns
`activeThemeName = value` (wrapped in the view-transition primitive when the
environment supports it, plainly otherwise). No validation of `value` occurs at
runtime: the assignment is unconditional. -/
noncomputable def setTheme (clientX clientY innerWidth innerHeight : ℝ)
    (value : String) (startViewTransitionSupported : Bool) : SetThemeResult :=
  { themeX := clientX
    themeY := clientY
    themeR := maxRadius clientX clientY innerWidth innerHeight
    sidebarVars := sidebarCssVars value
    active := value
    wrappedInViewTransition := startViewTransitionSupported }

/-- `removeHtmlClass` from the composable: removes from the document root every
registered theme class other than `value`. -/
def removeHtmlClass (classes : List String) (value : String) : List String :=
  let otherThemeNameList := themeNames.filter (fun name => name != value)
  classes.filter (fun c => !(otherThemeNameList.contains c))

/-- `addHtmlClass` from the composable: `classList.add(value)` (a set insert:
no-op when the class is already present). -/
def addHtmlClass (classes : List String) (value : String) : List String :=
  if classes.contains value then classes else classes ++ [value]

/-- The `watchEffect` body of `initTheme`: remove the other registered theme
classes from the root element, then add the active one, then persist the name
(returned as the second component). -/
def initThemeEffect (classes : List String) (value : String) : List String × String :=
  (addHtmlClass (removeHtmlClass classes value) value, value)

end Theme

namespace TagsView

namespace Sample

/-- Sample affixed home tab (spec §8 scenario 7). -/
def dashView : TagView := ⟨"/dashboard", some "/dashboard", some "Dashboard", [], true⟩

/-- Sample ordinary tab. -/
def kbList : TagView := ⟨"/kb/list", some "/kb/list", some "KBList", [], false⟩

/-- Sample tab whose `fullPath` carries a query string. -/
def kbEdit : TagView := ⟨"/kb/edit", some "/kb/edit?id=3", some "KBEdit", [("id", "3")], false⟩

/-- Sample registry state holding the three tabs above. -/
def st : RegistryState := ⟨[dashView, kbList, kbEdit], ["KBList", "KBEdit"]⟩

end Sample

lemma toLastView_kind (vv : List TagView) (view : TagView) :
    ∀ e ∈ toLastView vv view, e.kind = NavKind.push := by
  intro e he
  unfold toLastView at he
  split at he
  · simp only [List.mem_singleton] at he
    subst he; rfl
  · split at he <;> (simp only [List.mem_singleton] at he; subst he; rfl)

lemma toLastView_spec (vv : List TagView) (view : TagView)
    (hfp : ∀ w ∈ vv, w.fullPath.isSome = true) :
    (∃ w fp, vv.getLast? = some w ∧ w.fullPath = some fp ∧
        toLastView vv view = [⟨NavKind.push, fp, []⟩]) ∨
    (vv = [] ∧ toLastView vv view =
        (if view.name = some "Dashboard" then
           [⟨NavKind.push, "/redirect" ++ view.path, view.query⟩]
         else [⟨NavKind.push, "/", []⟩])) := by
  rcases h : vv.getLast? with _ | w
  · right
    have hnil : vv = [] := List.getLast?_eq_none_iff.mp h
    constructor
    · exact hnil
    · subst hnil
      unfold toLastView
      by_cases hname : view.name = some "Dashboard" <;> simp [hname]
  · left
    have hw : w ∈ vv := by
      obtain ⟨hne, hx⟩ := List.mem_getLast?_eq_getLast (Option.mem_def.mpr h)
      rw [hx]; exact List.getLast_mem hne
    obtain ⟨fp, hfp'⟩ := Option.isSome_iff_exists.mp (hfp w hw)
    refine ⟨w, fp, rfl, hfp', ?_⟩
    unfold toLastView
    rw [h]
    simp [hfp']

end TagsView

namespace TagsView

/-- C5: for every view v, refresh(v) removes v's name from CachedViews while
leaving the VisitedViews collection unchanged (v's path remains present and no
VisitedView is duplicated), and issues exactly one redirect-style navigation to
`/redirect` + v.path carrying v's query. -/
theorem tagsView_C5_refresh (v : TagView) (s : RegistryState) :
    (refreshSelectedTag v s).1.visitedViews = s.visitedViews ∧
    (∀ n, v.name = some n → n ∉ (refreshSelectedTag v s).1.cachedViews) ∧
    (∀ n, n ∈ s.cachedViews → v.name ≠ some n →
      n ∈ (refreshSelectedTag v s).1.cachedViews) ∧
    (refreshSelectedTag v s).2 =
      [⟨NavKind.replace, "/redirect" ++ v.path, v.query⟩] := by
  refine ⟨rfl, ?_, ?_, rfl⟩
  · intro n hn
    simp [refreshSelectedTag, delCachedView, List.mem_filter, hn]
  · intro n hmem hne
    simp [refreshSelectedTag, delCachedView, List.mem_filter, hmem, bne_iff_ne]
    exact hne

/-- C10: refresh(v)'s redirect uses the replacing primitive (`router.replace`)
targeting `/redirect` + v.path with v's query, while every navigation triggered
by closeOne, closeOthers and closeAll uses the pushing primitive (`router.push`). -/
theorem tagsView_C10_navPrimitives (v keep w : TagView) (s1 s2 s3 : RegistryState)
    (cp1 cp2 cp3 : String) (affixTags : List TagView) :
    (refreshSelectedTag v s1).2 =
      [⟨NavKind.replace, "/redirect" ++ v.path, v.query⟩] ∧
    (∀ e ∈ (closeSelectedTag v s1 cp1).2, e.kind = NavKind.push) ∧
    (∀ e ∈ (closeOthersTags keep s2 cp2).2, e.kind = NavKind.push) ∧
    (∀ e ∈ (closeAllTags w s3 cp3 affixTags).2, e.kind = NavKind.push) := by
  refine ⟨rfl, ?_, ?_, ?_⟩
  · intro e he
    unfold closeSelectedTag at he
    dsimp only at he
    split at he
    · exact toLastView_kind _ _ e he
    · simp at he
  · intro e he
    unfold closeOthersTags at he
    dsimp only at he
    split at he
    · split at he
      · simp only [List.mem_singleton] at he
        subst he; rfl
      · simp at he
    · simp at he
  · intro e he
    unfold closeAllTags at he
    dsimp only at he
    split at he
    · simp at he
    · exact toLastView_kind _ _ e he

/-- C2: for every affixed view v present in the registry, closing it through the
UI (whose close controls are guarded by `!isAffix`) leaves it present, and both
closeOthers and closeAll leave it present in VisitedViews. -/
theorem tagsView_C2_affixImmutable (v keep w : TagView) (s : RegistryState)
    (cp : String) (affixTags : List TagView)
    (haff : v.affix = true) (hmem : v ∈ s.visitedViews) :
    v ∈ (closeTagFromUI v s cp).1.visitedViews ∧
    v ∈ (closeOthersTags keep s cp).1.visitedViews ∧
    v ∈ (closeAllTags w s cp affixTags).1.visitedViews := by
  refine ⟨?_, ?_, ?_⟩
  · simp [closeTagFromUI, isAffix, haff, hmem]
  · simp [closeOthersTags, delOthersCachedViews, delOthersVisitedViews,
      List.mem_filter, haff, hmem]
  · simp [closeAllTags, delAllCachedViews, delAllVisitedViews,
      List.mem_filter, haff, hmem]

/-- Witness for C2 at the sample affixed dashboard tab. -/
theorem tagsView_C2_witness :
    Sample.dashView.affix = true ∧ Sample.dashView ∈ Sample.st.visitedViews ∧
    (Sample.dashView ∈
        (closeTagFromUI Sample.dashView Sample.st "/kb/list").1.visitedViews ∧
      Sample.dashView ∈
        (closeOthersTags Sample.kbList Sample.st "/kb/list").1.visitedViews ∧
      Sample.dashView ∈
        (closeAllTags Sample.kbList Sample.st "/kb/list" [Sample.dashView]).1.visitedViews) :=
  ⟨rfl, by decide,
    tagsView_C2_affixImmutable Sample.dashView Sample.kbList Sample.kbList
      Sample.st "/kb/list" [Sample.dashView] rfl (by decide)⟩

end TagsView

namespace TagsView

/-- C1: for every view v, closeOne(v) removes v from both VisitedViews and
CachedViews; a follow-up navigation is issued if and only if v is the active
view (v.path equals the current route path), targeting the last entry of the
surviving VisitedViews sequence, or, when that sequence is empty, the home
route — pushing `/redirect` + v.path (a cache-busting remount) when v's route
name is "Dashboard", and the application root `/` otherwise. -/
theorem tagsView_C1_closeOne (v : TagView) (s : RegistryState) (cp : String)
    (hfp : ∀ w ∈ s.visitedViews, w.fullPath.isSome = true) :
    (∀ w ∈ (closeSelectedTag v s cp).1.visitedViews, w.path ≠ v.path) ∧
    (∀ n, v.name = some n → n ∉ (closeSelectedTag v s cp).1.cachedViews) ∧
    (v.path ≠ cp → (closeSelectedTag v s cp).2 = []) ∧
    (v.path = cp →
      ((∃ w fp, (closeSelectedTag v s cp).1.visitedViews.getLast? = some w ∧
          w.fullPath = some fp ∧
          (closeSelectedTag v s cp).2 = [⟨NavKind.push, fp, []⟩]) ∨
       ((closeSelectedTag v s cp).1.visitedViews = [] ∧
        (closeSelectedTag v s cp).2 =
          (if v.name = some "Dashboard" then
             [⟨NavKind.push, "/redirect" ++ v.path, v.query⟩]
           else [⟨NavKind.push, "/", []⟩])))) := by
  refine ⟨?_, ?_, ?_, ?_⟩
  · intro w hw
    simp only [closeSelectedTag, delCachedView, delVisitedView,
      List.mem_filter] at hw
    exact bne_iff_ne.mp hw.2
  · intro n hn
    simp [closeSelectedTag, delCachedView, delVisitedView, List.mem_filter, hn]
  · intro hne
    simp [closeSelectedTag, isActive, hne]
  · intro heq
    have hfp' : ∀ w ∈ (delCachedView (delVisitedView s v) v).visitedViews,
        w.fullPath.isSome = true := by
      intro w hw
      exact hfp w (List.mem_filter.mp hw).1
    have h2 : (closeSelectedTag v s cp).2 =
        toLastView (delCachedView (delVisitedView s v) v).visitedViews v := by
      simp [closeSelectedTag, isActive, heq]
    have h1 : (closeSelectedTag v s cp).1 = delCachedView (delVisitedView s v) v := rfl
    rw [h1, h2]
    exact toLastView_spec _ v hfp'

/-- Witness for C1: closing the active `/kb/edit` tab of the sample registry. -/
theorem tagsView_C1_witness :
    (∀ w ∈ Sample.st.visitedViews, w.fullPath.isSome = true) ∧
    ((∀ w ∈ (closeSelectedTag Sample.kbEdit Sample.st "/kb/edit").1.visitedViews,
        w.path ≠ Sample.kbEdit.path) ∧
     (∀ n, Sample.kbEdit.name = some n →
        n ∉ (closeSelectedTag Sample.kbEdit Sample.st "/kb/edit").1.cachedViews) ∧
     (Sample.kbEdit.path ≠ "/kb/edit" →
        (closeSelectedTag Sample.kbEdit Sample.st "/kb/edit").2 = []) ∧
     (Sample.kbEdit.path = "/kb/edit" →
       ((∃ w fp,
           (closeSelectedTag Sample.kbEdit Sample.st "/kb/edit").1.visitedViews.getLast?
             = some w ∧ w.fullPath = some fp ∧
           (closeSelectedTag Sample.kbEdit Sample.st "/kb/edit").2 =
             [⟨NavKind.push, fp, []⟩]) ∨
        ((closeSelectedTag Sample.kbEdit Sample.st "/kb/edit").1.visitedViews = [] ∧
         (closeSelectedTag Sample.kbEdit Sample.st "/kb/edit").2 =
           (if Sample.kbEdit.name = some "Dashboard" then
              [⟨NavKind.push, "/redirect" ++ Sample.kbEdit.path, Sample.kbEdit.query⟩]
            else [⟨NavKind.push, "/", []⟩]))))) :=
  ⟨by decide, tagsView_C1_closeOne Sample.kbEdit Sample.st "/kb/edit" (by decide)⟩

end TagsView

namespace TagsView

/-- Counterexample to C3 as stated: with keep = the `/kb/edit` tab whose
`fullPath` carries the query `?id=3`, closing others while the current route
path already equals keep's path still issues a navigation (the component
compares `fullPath`, not `path`, against the current route path). -/
theorem tagsView_C3_counterexample :
    Sample.kbEdit.path = "/kb/edit" ∧
    (closeOthersTags Sample.kbEdit Sample.st "/kb/edit").2 =
      [⟨NavKind.push, "/kb/edit?id=3", []⟩] ∧
    (closeOthersTags Sample.kbEdit Sample.st "/kb/edit").2 ≠ [] := by
  decide

/-- C3 (amended): closeOthers(keep) leaves the surviving VisitedViews/CachedViews
equal to exactly {keep} ∪ {affixed views}, and issues a pushing navigation to
keep's fullPath exactly when keep's fullPath is defined and differs from the
current route path (so a navigation can occur even when the current route path
already equals keep's path, whenever keep's fullPath carries a query). -/
theorem tagsView_C3_closeOthers (keep : TagView) (s : RegistryState) (cp : String)
    (hkeep : ∃ w ∈ s.visitedViews, w.path = keep.path) :
    (∀ p : String,
       (∃ w ∈ (closeOthersTags keep s cp).1.visitedViews, w.path = p) ↔
       (p = keep.path ∨ ∃ w ∈ s.visitedViews, w.affix = true ∧ w.path = p)) ∧
    (∀ w, w ∈ (closeOthersTags keep s cp).1.visitedViews ↔
       (w ∈ s.visitedViews ∧ (w.affix = true ∨ w.path = keep.path))) ∧
    (∀ n, n ∈ (closeOthersTags keep s cp).1.cachedViews ↔
       (n ∈ s.cachedViews ∧ (keep.name = some n ∨
          ∃ w ∈ s.visitedViews, w.affix = true ∧ w.name = some n))) ∧
    ((closeOthersTags keep s cp).2 =
       match keep.fullPath with
       | some fp => if fp ≠ cp then [⟨NavKind.push, fp, []⟩] else []
       | none => []) := by
  have hmem : ∀ w, w ∈ (closeOthersTags keep s cp).1.visitedViews ↔
      (w ∈ s.visitedViews ∧ (w.affix = true ∨ w.path = keep.path)) := by
    intro w
    simp [closeOthersTags, delOthersCachedViews, delOthersVisitedViews,
      List.mem_filter]
  refine ⟨?_, hmem, ?_, ?_⟩
  · intro p
    constructor
    · rintro ⟨w, hw, rfl⟩
      rcases (hmem w).mp hw with ⟨hws, haff | hpath⟩
      · exact Or.inr ⟨w, hws, haff, rfl⟩
      · exact Or.inl hpath
    · rintro (rfl | ⟨w, hws, haff, rfl⟩)
      · obtain ⟨w, hws, hwp⟩ := hkeep
        exact ⟨w, (hmem w).mpr ⟨hws, Or.inr hwp⟩, hwp⟩
      · exact ⟨w, (hmem w).mpr ⟨hws, Or.inl haff⟩, rfl⟩
  · intro n
    simp only [closeOthersTags, delOthersCachedViews, delOthersVisitedViews,
      List.mem_filter, List.any_eq_true, Bool.or_eq_true, Bool.and_eq_true,
      beq_iff_eq]
    constructor
    · rintro ⟨h1, h2 | ⟨w, ⟨hws, -⟩, haff, hname⟩⟩
      · exact ⟨h1, Or.inl h2⟩
      · exact ⟨h1, Or.inr ⟨w, hws, haff, hname⟩⟩
    · rintro ⟨h1, h2 | ⟨w, hws, haff, hname⟩⟩
      · exact ⟨h1, Or.inl h2⟩
      · exact ⟨h1, Or.inr ⟨w, ⟨hws, Or.inl haff⟩, haff, hname⟩⟩
  · rcases hkf : keep.fullPath with _ | fp
    · simp [closeOthersTags, hkf]
    · by_cases hne : fp = cp
      · simp [closeOthersTags, hkf, hne]
      · simp [closeOthersTags, hkf, hne]

/-- Witness for C3 (amended): keep the `/kb/list` tab while `/dashboard` is the
current route. -/
theorem tagsView_C3_witness :
    (∃ w ∈ Sample.st.visitedViews, w.path = Sample.kbList.path) ∧
    ((∀ p : String,
        (∃ w ∈ (closeOthersTags Sample.kbList Sample.st "/dashboard").1.visitedViews,
           w.path = p) ↔
        (p = Sample.kbList.path ∨
           ∃ w ∈ Sample.st.visitedViews, w.affix = true ∧ w.path = p)) ∧
     (∀ w, w ∈ (closeOthersTags Sample.kbList Sample.st "/dashboard").1.visitedViews ↔
        (w ∈ Sample.st.visitedViews ∧
          (w.affix = true ∨ w.path = Sample.kbList.path))) ∧
     (∀ n, n ∈ (closeOthersTags Sample.kbList Sample.st "/dashboard").1.cachedViews ↔
        (n ∈ Sample.st.cachedViews ∧ (Sample.kbList.name = some n ∨
           ∃ w ∈ Sample.st.visitedViews, w.affix = true ∧ w.name = some n))) ∧
     ((closeOthersTags Sample.kbList Sample.st "/dashboard").2 =
        match Sample.kbList.fullPath with
        | some fp => if fp ≠ "/dashboard" then [⟨NavKind.push, fp, []⟩] else []
        | none => [])) :=
  ⟨by decide, tagsView_C3_closeOthers Sample.kbList Sample.st "/dashboard" (by decide)⟩

end TagsView

namespace TagsView

/-- C4: closeAll removes every non-affixed VisitedView and CachedView so that the
survivors are exactly the affixed views; when the current route path belongs to
an affixed view no navigation occurs, otherwise the same redirect-to-last-or-home
rule as closeOne applies (push the last survivor's fullPath, or the home rule
with the Dashboard cache-busting special case). -/
theorem tagsView_C4_closeAll (v : TagView) (s : RegistryState) (cp : String)
    (affixTags : List TagView)
    (hfp : ∀ w ∈ s.visitedViews, w.fullPath.isSome = true)
    (haffix : ∀ p : String, (∃ t ∈ affixTags, t.path = p) ↔
        (∃ w ∈ s.visitedViews, w.affix = true ∧ w.path = p)) :
    (∀ w, w ∈ (closeAllTags v s cp affixTags).1.visitedViews ↔
        (w ∈ s.visitedViews ∧ w.affix = true)) ∧
    (∀ n, n ∈ (closeAllTags v s cp affixTags).1.cachedViews ↔
        (n ∈ s.cachedViews ∧
          ∃ w ∈ s.visitedViews, w.affix = true ∧ w.name = some n)) ∧
    ((∃ w ∈ s.visitedViews, w.affix = true ∧ w.path = cp) →
        (closeAllTags v s cp affixTags).2 = []) ∧
    (¬ (∃ w ∈ s.visitedViews, w.affix = true ∧ w.path = cp) →
      ((∃ w fp, (closeAllTags v s cp affixTags).1.visitedViews.getLast? = some w ∧
          w.fullPath = some fp ∧
          (closeAllTags v s cp affixTags).2 = [⟨NavKind.push, fp, []⟩]) ∨
       ((closeAllTags v s cp affixTags).1.visitedViews = [] ∧
        (closeAllTags v s cp affixTags).2 =
          (if v.name = some "Dashboard" then
             [⟨NavKind.push, "/redirect" ++ v.path, v.query⟩]
           else [⟨NavKind.push, "/", []⟩])))) := by
  refine ⟨?_, ?_, ?_, ?_⟩
  · intro w
    simp [closeAllTags, delAllCachedViews, delAllVisitedViews, List.mem_filter]
  · intro n
    simp only [closeAllTags, delAllCachedViews, delAllVisitedViews,
      List.mem_filter, List.any_eq_true, Bool.and_eq_true, beq_iff_eq]
    constructor
    · rintro ⟨h1, w, ⟨hws, -⟩, haff, hname⟩
      exact ⟨h1, w, hws, haff, hname⟩
    · rintro ⟨h1, w, hws, haff, hname⟩
      exact ⟨h1, w, ⟨hws, haff⟩, haff, hname⟩
  · intro h
    have hany : affixTags.any (fun tag => tag.path == cp) = true := by
      rw [List.any_eq_true]
      obtain ⟨t, ht, htp⟩ := (haffix cp).mpr h
      exact ⟨t, ht, beq_iff_eq.mpr htp⟩
    simp [closeAllTags, hany]
  · intro h
    have hany : affixTags.any (fun tag => tag.path == cp) = false := by
      rw [Bool.eq_false_iff]
      intro hany
      obtain ⟨t, ht, htp⟩ := List.any_eq_true.mp hany
      exact h ((haffix cp).mp ⟨t, ht, beq_iff_eq.mp htp⟩)
    have hfp' : ∀ w ∈ (delAllCachedViews (delAllVisitedViews s)).visitedViews,
        w.fullPath.isSome = true := by
      intro w hw
      exact hfp w (List.mem_filter.mp hw).1
    have h2 : (closeAllTags v s cp affixTags).2 =
        toLastView (delAllCachedViews (delAllVisitedViews s)).visitedViews v := by
      simp [closeAllTags, hany]
    have h1 : (closeAllTags v s cp affixTags).1 =
        delAllCachedViews (delAllVisitedViews s) := rfl
    rw [h1, h2]
    exact toLastView_spec _ v hfp'

/-- Witness for C4: close all tabs of the sample registry from the `/kb/list`
route, with the dashboard as the only affix tag. -/
theorem tagsView_C4_witness :
    (∀ w ∈ Sample.st.visitedViews, w.fullPath.isSome = true) ∧
    (∀ p : String, (∃ t ∈ [Sample.dashView], t.path = p) ↔
        (∃ w ∈ Sample.st.visitedViews, w.affix = true ∧ w.path = p)) ∧
    ((∀ w, w ∈ (closeAllTags Sample.kbList Sample.st "/kb/list" [Sample.dashView]).1.visitedViews ↔
        (w ∈ Sample.st.visitedViews ∧ w.affix = true)) ∧
     (∀ n, n ∈ (closeAllTags Sample.kbList Sample.st "/kb/list" [Sample.dashView]).1.cachedViews ↔
        (n ∈ Sample.st.cachedViews ∧
          ∃ w ∈ Sample.st.visitedViews, w.affix = true ∧ w.name = some n)) ∧
     ((∃ w ∈ Sample.st.visitedViews, w.affix = true ∧ w.path = "/kb/list") →
        (closeAllTags Sample.kbList Sample.st "/kb/list" [Sample.dashView]).2 = []) ∧
     (¬ (∃ w ∈ Sample.st.visitedViews, w.affix = true ∧ w.path = "/kb/list") →
       ((∃ w fp,
           (closeAllTags Sample.kbList Sample.st "/kb/list" [Sample.dashView]).1.visitedViews.getLast?
             = some w ∧ w.fullPath = some fp ∧
           (closeAllTags Sample.kbList Sample.st "/kb/list" [Sample.dashView]).2 =
             [⟨NavKind.push, fp, []⟩]) ∨
        ((closeAllTags Sample.kbList Sample.st "/kb/list" [Sample.dashView]).1.visitedViews = [] ∧
         (closeAllTags Sample.kbList Sample.st "/kb/list" [Sample.dashView]).2 =
           (if Sample.kbList.name = some "Dashboard" then
              [⟨NavKind.push, "/redirect" ++ Sample.kbList.path, Sample.kbList.query⟩]
            else [⟨NavKind.push, "/", []⟩]))))) :=
  ⟨by decide,
   by
     intro p
     simp [Sample.st, Sample.dashView, Sample.kbList, Sample.kbEdit],
   tagsView_C4_closeAll Sample.kbList Sample.st "/kb/list" [Sample.dashView]
     (by decide)
     (by
       intro p
       simp [Sample.st, Sample.dashView, Sample.kbList, Sample.kbEdit])⟩

end TagsView

namespace Theme

lemma filter_beq_of_nodup (l : List String) (v : String) (hnd : l.Nodup) :
    l.filter (fun c => c == v) = if v ∈ l then [v] else [] := by
  induction l with
  | nil => simp
  | cons a t ih =>
    rcases List.nodup_cons.mp hnd with ⟨ha, ht⟩
    by_cases hav : a = v
    · subst hav
      simp [List.filter_cons, ih ht, ha]
    · have hva : ¬v = a := fun h => hav h.symm
      simp [List.filter_cons, hav, hva, ih ht]

/-- Counterexample to C6 as stated: with the unregistered identifier
"bogus-theme" stored, load does not fall back to the default "normal" — the
active theme becomes "bogus-theme" — and likewise setTheme adopts the supplied
value unconditionally. -/
theorem theme_C6_counterexample :
    initialActiveThemeName (some "bogus-theme") = "bogus-theme" ∧
    ("bogus-theme" ∈ themeNames → False) ∧
    "bogus-theme" ≠ DEFAULT_THEME_NAME ∧
    (setTheme 1 2 3 4 "bogus-theme" false).active = "bogus-theme" :=
  ⟨by decide, by decide, by decide, rfl⟩

/-- C6 (amended): the load-time fallback to the default theme applies exactly to
an absent or empty stored identifier; any non-empty stored string — registered
or not — is adopted as-is, and setTheme (a total function, so it never throws)
unconditionally sets the active theme to the supplied value. -/
theorem theme_C6_fallback (stored : String) (h : stored ≠ "")
    (x y W H : ℝ) (value : String) (sup : Bool) :
    initialActiveThemeName none = DEFAULT_THEME_NAME ∧
    initialActiveThemeName (some "") = DEFAULT_THEME_NAME ∧
    initialActiveThemeName (some stored) = stored ∧
    (setTheme x y W H value sup).active = value := by
  refine ⟨rfl, by simp [initialActiveThemeName], ?_, rfl⟩
  simp [initialActiveThemeName, h]

/-- Witness for C6 (amended) at the stored identifier "dark". -/
theorem theme_C6_witness :
    ("dark" : String) ≠ "" ∧
    (initialActiveThemeName none = DEFAULT_THEME_NAME ∧
     initialActiveThemeName (some "") = DEFAULT_THEME_NAME ∧
     initialActiveThemeName (some "dark") = "dark" ∧
     (setTheme 1 2 3 4 "dark" true).active = "dark") :=
  ⟨by decide, theme_C6_fallback "dark" (by decide) 1 2 3 4 "dark" true⟩

/-- C7: after the theme-application side effect runs for a registered theme on a
duplicate-free class list, exactly one registered theme class is present on the
document root, and the removal step (which runs strictly before the add step)
already leaves no registered class other than the new value. -/
theorem theme_C7_exclusiveClass (classes : List String) (value : String)
    (hreg : value ∈ themeNames) (hnd : classes.Nodup) :
    (∀ c ∈ removeHtmlClass classes value, c ∈ themeNames → c = value) ∧
    (initThemeEffect classes value).1.filter (fun c => themeNames.contains c)
      = [value] := by
  have hother : ∀ c : String,
      ((themeNames.filter (fun n => n != value)).contains c) = true ↔
      (c ∈ themeNames ∧ c ≠ value) := by
    intro c
    simp [List.mem_filter, bne_iff_ne]
  constructor
  · intro c hc hcr
    by_contra hne
    have hc2 := (List.mem_filter.mp hc).2
    rw [Bool.not_eq_eq_eq_not, Bool.not_true, ← Bool.not_eq_true] at hc2
    exact hc2 ((hother c).mpr ⟨hcr, hne⟩)
  · have hpt : ∀ c ∈ classes,
        (themeNames.contains c
          && !((themeNames.filter (fun n => n != value)).contains c))
        = (c == value) := by
      intro c _
      by_cases hcv : c = value
      · subst hcv
        have h1 : themeNames.contains c = true := by simpa using hreg
        have h2 : ((themeNames.filter (fun n => n != c)).contains c) = false := by
          rw [← Bool.not_eq_true]
          intro hcon
          exact ((hother c).mp hcon).2 rfl
        rw [h1, h2]
        simp
      · have h2 : (c == value) = false := by simpa using hcv
        rw [h2]
        by_cases hct : c ∈ themeNames
        · have h3 : ((themeNames.filter (fun n => n != value)).contains c) = true :=
            (hother c).mpr ⟨hct, hcv⟩
          rw [h3]
          simp
        · have h4 : themeNames.contains c = false := by simpa using hct
          rw [h4]
          simp
    have hkey : (removeHtmlClass classes value).filter
        (fun c => themeNames.contains c) = classes.filter (fun c => c == value) := by
      unfold removeHtmlClass
      rw [List.filter_filter]
      exact List.filter_congr hpt
    have hbase := filter_beq_of_nodup classes value hnd
    have hfst : (initThemeEffect classes value).1 =
        addHtmlClass (removeHtmlClass classes value) value := rfl
    rw [hfst]
    unfold addHtmlClass
    by_cases hmem : value ∈ classes
    · have hvr : value ∈ removeHtmlClass classes value := by
        refine List.mem_filter.mpr ⟨hmem, ?_⟩
        have hf : ((themeNames.filter (fun n => n != value)).contains value) = false := by
          rw [← Bool.not_eq_true]
          intro hcon
          exact ((hother value).mp hcon).2 rfl
        simp [hf]
      have hcon : (removeHtmlClass classes value).contains value = true := by
        simpa using hvr
      rw [if_pos hcon, hkey, hbase, if_pos hmem]
    · have hvr : value ∉ removeHtmlClass classes value :=
        fun hin => hmem (List.mem_filter.mp hin).1
      have hcon : ¬((removeHtmlClass classes value).contains value = true) := by
        simpa using hvr
      rw [if_neg hcon, List.filter_append, hkey, hbase, if_neg hmem]
      simp [hreg]

/-- Witness for C7: applying "normal" to a root carrying the "dark" theme class
and an unrelated class. -/
theorem theme_C7_witness :
    ("normal" ∈ themeNames ∧ (["dark", "custom-page"] : List String).Nodup) ∧
    ((∀ c ∈ removeHtmlClass ["dark", "custom-page"] "normal",
        c ∈ themeNames → c = "normal") ∧
     (initThemeEffect ["dark", "custom-page"] "normal").1.filter
        (fun c => themeNames.contains c) = ["normal"]) :=
  ⟨by decide,
   theme_C7_exclusiveClass ["dark", "custom-page"] "normal" (by decide) (by decide)⟩

end Theme

namespace Theme

/-- C8: for a click origin inside the viewport, the reveal radius computed by
setTheme — `hypot(max(x, W − x), max(y, H − y))` — equals the maximum over the
four viewport corners (0,0), (W,0), (0,H), (W,H) of the Euclidean distance from
(x, y) to that corner. -/
theorem theme_C8_maxRadius (x y W H : ℝ)
    (hx0 : 0 ≤ x) (hxW : x ≤ W) (hy0 : 0 ≤ y) (hyH : y ≤ H) :
    maxRadius x y W H =
      max (max (cornerDistance x y 0 0) (cornerDistance x y W 0))
          (max (cornerDistance x y 0 H) (cornerDistance x y W H)) := by
  have hWx : 0 ≤ W - x := by linarith
  have hHy : 0 ≤ H - y := by linarith
  unfold maxRadius cornerDistance
  have c00 : (x - 0) ^ 2 + (y - 0) ^ 2 = x ^ 2 + y ^ 2 := by ring
  have cW0 : (x - W) ^ 2 + (y - 0) ^ 2 = (W - x) ^ 2 + y ^ 2 := by ring
  have c0H : (x - 0) ^ 2 + (y - H) ^ 2 = x ^ 2 + (H - y) ^ 2 := by ring
  have cWH : (x - W) ^ 2 + (y - H) ^ 2 = (W - x) ^ 2 + (H - y) ^ 2 := by ring
  rw [c00, cW0, c0H, cWH]
  apply le_antisymm
  · rcases max_choice x (W - x) with hA | hA <;>
      rcases max_choice y (H - y) with hB | hB <;> rw [hA, hB]
    · exact le_trans (le_max_left _ _) (le_max_left _ _)
    · exact le_trans (le_max_left _ _) (le_max_right _ _)
    · exact le_trans (le_max_right _ _) (le_max_left _ _)
    · exact le_trans (le_max_right _ _) (le_max_right _ _)
  · have key : ∀ u v : ℝ, 0 ≤ u → u ≤ max x (W - x) → 0 ≤ v → v ≤ max y (H - y) →
        Real.sqrt (u ^ 2 + v ^ 2) ≤
          Real.sqrt ((max x (W - x)) ^ 2 + (max y (H - y)) ^ 2) := by
      intro u v hu huA hv hvB
      apply Real.sqrt_le_sqrt
      have h1 : u ^ 2 ≤ (max x (W - x)) ^ 2 := by nlinarith
      have h2 : v ^ 2 ≤ (max y (H - y)) ^ 2 := by nlinarith
      linarith
    refine max_le (max_le ?_ ?_) (max_le ?_ ?_)
    · exact key x y hx0 (le_max_left _ _) hy0 (le_max_left _ _)
    · exact key (W - x) y hWx (le_max_right _ _) hy0 (le_max_left _ _)
    · exact key x (H - y) hx0 (le_max_left _ _) hHy (le_max_right _ _)
    · exact key (W - x) (H - y) hWx (le_max_right _ _) hHy (le_max_right _ _)

/-- Witness for C8 at the click origin (1, 1) in a 3 × 4 viewport. -/
theorem theme_C8_witness :
    ((0 : ℝ) ≤ 1 ∧ (1 : ℝ) ≤ 3 ∧ (0 : ℝ) ≤ 1 ∧ (1 : ℝ) ≤ 4) ∧
    maxRadius 1 1 3 4 =
      max (max (cornerDistance 1 1 0 0) (cornerDistance 1 1 3 0))
          (max (cornerDistance 1 1 0 4) (cornerDistance 1 1 3 4)) :=
  ⟨by norm_num,
   theme_C8_maxRadius 1 1 3 4 (by norm_num) (by norm_num) (by norm_num) (by norm_num)⟩

end Theme
